import Mathlib

/-!
Verification development for the `pythonfileexplorer` repository.

Shallow embeddings of:
* `src/modules/undo_manager.py`   (class `UndoManager`)
* `src/modules/tab_history_manager.py` (class `TabHistoryManager`)
* `src/modules/pinned_manager.py` (class `PinnedManager`)

Python `list`s are modelled as Lean `List`s kept in the same order as the
Python list (so `append` adds at the end and `pop()` removes from the end).
Python `set`s are modelled as `List String` queried only through membership;
`set.add` is a membership-guarded cons and `set.remove` filters out every
occurrence (a set holds no duplicates, so this agrees with Python).
A raised exception is modelled as a `Bool` flag in the result when the raise
happens after all mutations, since the mutations performed before the raise
persist in Python.
-/

namespace UndoM

/-- A command of `undo_manager.py`.  Its only observable behaviour in this
development is whether `do()` and `undo()` raise, plus an identity tag. -/
structure Command where
  tag : Nat
  doRaises : Bool
  undoRaises : Bool
deriving DecidableEq, Repr

/-- The state of `UndoManager`: `_undo_stack` and `_redo_stack`, in Python
list order (the end of the list is the top of the stack). -/
structure UndoManager where
  undo_stack : List Command
  redo_stack : List Command
deriving DecidableEq, Repr

/-- Embedding of `UndoManager.push` (undo_manager.py lines 20-27).  The Python body runs
`self._undo_stack.append(command)`, then `self._redo_stack.clear()`, then
`command.do()`.  A raise from `do()` happens after both mutations, so the
resulting state is returned together with the raised flag. -/
def push (s : UndoManager) (c : Command) : UndoManager × Bool :=
  let s1 : UndoManager := { s with undo_stack := s.undo_stack ++ [c] }
  let s2 : UndoManager := { s1 with redo_stack := [] }
  (s2, c.doRaises)

/-- The `push` the spec describes (modelled from the spec, for comparison
with `push`): `do()` is called first, then the command is appended, then the
redo stack is cleared.  If `do()` raises first, no mutation has happened. -/
def push_specOrdered (s : UndoManager) (c : Command) : UndoManager × Bool :=
  if c.doRaises then (s, true)
  else ({ undo_stack := s.undo_stack ++ [c], redo_stack := [] }, false)

/-- Embedding of `UndoManager.undo` (undo_manager.py lines 29-34): early return on an
empty `_undo_stack`; otherwise pop the last command, run `command.undo()`
(a raise leaves the command popped and not yet on the redo stack), then
append it to `_redo_stack`. -/
def undo (s : UndoManager) : UndoManager × Bool :=
  match s.undo_stack.getLast? with
  | none => (s, false)
  | some c =>
      if c.undoRaises then
        ({ s with undo_stack := s.undo_stack.dropLast }, true)
      else
        ({ undo_stack := s.undo_stack.dropLast,
           redo_stack := s.redo_stack ++ [c] }, false)

/-- Embedding of `UndoManager.redo` (undo_manager.py lines 36-41): early return on an
empty `_redo_stack`; otherwise pop the last command, run `command.do()`,
then append it to `_undo_stack`. -/
def redo (s : UndoManager) : UndoManager × Bool :=
  match s.redo_stack.getLast? with
  | none => (s, false)
  | some c =>
      if c.doRaises then
        ({ s with redo_stack := s.redo_stack.dropLast }, true)
      else
        ({ undo_stack := s.undo_stack ++ [c],
           redo_stack := s.redo_stack.dropLast }, false)

/-- Embedding of `UndoManager.can_undo` (undo_manager.py lines 43-44). -/
def can_undo (s : UndoManager) : Bool :=
  s.undo_stack.length > 0

/-- Embedding of `UndoManager.can_redo` (undo_manager.py lines 46-47). -/
def can_redo (s : UndoManager) : Bool :=
  s.redo_stack.length > 0

end UndoM

namespace TabHistory

/-- One entry of `TabHistoryManager.tab_states` (tab_history_manager.py):
`{"history": [paths], "history_index": int}`.  The index is an unbounded
Python `int`, modelled as `Int`. -/
structure TabEntry where
  history : List String
  history_index : Int
deriving DecidableEq, Repr

/-- Embedding of `TabHistoryManager.tab_states`: a dict from widget id to entry, modelled
as a function to `Option TabEntry` (`none` = key absent). -/
def TabStates : Type := Nat → Option TabEntry

/-- Dict assignment `self.tab_states[widget_id] = entry`. -/
def setEntry (m : TabStates) (h : Nat) (e : TabEntry) : TabStates :=
  fun k => if k = h then some e else m k

/-- Dict deletion `del self.tab_states[widget_id]`. -/
def delEntry (m : TabStates) (h : Nat) : TabStates :=
  fun k => if k = h then none else m k

/-- Python list slicing `l[:k]` for an `int` bound `k`: a nonnegative bound
takes the first `k` elements (clamped at the length); a negative bound
counts from the end, `l[:k] = l[:len(l)+k]`, clamped at the empty list. -/
def pySliceTo (l : List String) (k : Int) : List String :=
  if 0 ≤ k then l.take k.toNat
  else l.take ((l.length + k).toNat)

/-- Embedding of `TabHistoryManager.init_tab_history` (lines 56-82).  The `ValueError` on
an empty path is raised before any mutation, so it is modelled as leaving
the state unchanged; the `None`-widget and non-`str` checks are outside the
typed embedding (handles are `Nat`, paths are `String`). -/
def init_tab_history (m : TabStates) (h : Nat) (initial_path : String) :
    TabStates :=
  if initial_path = "" then m
  else setEntry m h { history := [initial_path], history_index := 0 }

/-- Embedding of `TabHistoryManager.remove_tab_history` (lines 84-101):
`self.tab_states.pop(widget_id, None)`. -/
def remove_tab_history (m : TabStates) (h : Nat) : TabStates :=
  delEntry m h

/-- Embedding of `TabHistoryManager.get_current_path` (lines 103-126): empty string when
no entry exists or the index is out of bounds, else `history[history_index]`. -/
def get_current_path (m : TabStates) (h : Nat) : String :=
  match m h with
  | none => ""
  | some state =>
      if 0 ≤ state.history_index ∧
          state.history_index < (state.history.length : Int) then
        state.history.getD state.history_index.toNat ""
      else ""

/-- Embedding of `TabHistoryManager.push_path` (lines 128-164).  An empty path raises
before any mutation (modelled as no state change); with no entry it behaves
as `init_tab_history`; otherwise it truncates the history to
`history[:index+1]`, appends the new path and increments the index. -/
def push_path (m : TabStates) (h : Nat) (new_path : String) : TabStates :=
  if new_path = "" then m
  else
    match m h with
    | none => init_tab_history m h new_path
    | some state =>
        let truncated := pySliceTo state.history (state.history_index + 1)
        setEntry m h
          { history := truncated ++ [new_path],
            history_index := state.history_index + 1 }

/-- Embedding of `TabHistoryManager.go_back` (lines 166-187): with no entry, returns the
empty string; otherwise decrements the index when it is positive and returns
`get_current_path` of the resulting state. -/
def go_back (m : TabStates) (h : Nat) : TabStates × String :=
  match m h with
  | none => (m, "")
  | some state =>
      let state1 :=
        if state.history_index > 0 then
          { state with history_index := state.history_index - 1 }
        else state
      let m1 := setEntry m h state1
      (m1, get_current_path m1 h)

/-- Embedding of `TabHistoryManager.go_forward` (lines 189-216): with no entry, returns
the empty string; when `history_index < len(history) - 1` increments the
index and returns the new current path, else returns the empty string. -/
def go_forward (m : TabStates) (h : Nat) : TabStates × String :=
  match m h with
  | none => (m, "")
  | some state =>
      if state.history_index < (state.history.length : Int) - 1 then
        let m1 := setEntry m h
          { state with history_index := state.history_index + 1 }
        (m1, get_current_path m1 h)
      else (m, "")

/-- Embedding of `TabHistoryManager.go_up` (lines 218-242).  `os.path.dirname` and
`os.path.exists` are environment functions, taken as parameters `dirname`
and `exists_fs`. -/
def go_up (dirname : String → String) (exists_fs : String → Bool)
    (m : TabStates) (h : Nat) : TabStates × String :=
  let current_path := get_current_path m h
  if current_path = "" then (m, "")
  else
    let parent_dir := dirname current_path
    if parent_dir ≠ "" ∧ exists_fs parent_dir then
      (push_path m h parent_dir, parent_dir)
    else (m, "")

/-- Embedding of `TabHistoryManager.migrate_history` (lines 244-274): when the source has
an entry, copy it to the target id, then `del self.tab_states[source_id]`
(the delete runs second, so migrating a handle onto itself deletes it). -/
def migrate_history (m : TabStates) (source : Nat) (target : Nat) :
    TabStates :=
  match m source with
  | none => m
  | some source_state =>
      let m1 := setEntry m target
        { history := source_state.history,
          history_index := source_state.history_index }
      delEntry m1 source

/-- The spec invariant on one entry: the history is non-empty and
`0 <= history_index < len(history)`. -/
def EntryInv (e : TabEntry) : Prop :=
  e.history ≠ [] ∧ 0 ≤ e.history_index ∧
    e.history_index < (e.history.length : Int)

/-- The invariant for every handle that has an entry. -/
def Inv (m : TabStates) : Prop :=
  ∀ h e, m h = some e → EntryInv e

end TabHistory

namespace Pinned

/-- The decoded content of the persisted JSON file read by
`PinnedManager.load_pinned_items` (pinned_manager.py lines 38-60): either a
bare array of strings (the legacy format), a JSON object whose `"pinned"`
and `"favorites"` keys may each be absent (`none`), or any other JSON value. -/
inductive JsonData where
  | list (items : List String)
  | dict (pinned : Option (List String)) (favorites : Option (List String))
  | other
deriving DecidableEq, Repr

/-- The state of `PinnedManager`: the two Python sets `pinned_items` and
`favorite_items`, modelled as lists queried through membership. -/
structure PinnedManager where
  pinned_items : List String
  favorite_items : List String
deriving DecidableEq, Repr

/-- Python `set.add` on the list model: a no-op when the element is already
present, otherwise a cons. -/
def setAdd (l : List String) (x : String) : List String :=
  if x ∈ l then l else x :: l

/-- Python `set.remove` on the list model: drop every occurrence (a set has
no duplicates). -/
def setRemove (l : List String) (x : String) : List String :=
  l.filter (fun y => y ≠ x)

/-- Embedding of `PinnedManager.load_pinned_items` (lines 38-60) on already-decoded data:
a bare list becomes the pinned set with no favorites; a dict takes its
`"pinned"` and `"favorites"` keys, each defaulting to `[]` when absent;
any other shape leaves the state unchanged (as do a missing file and a
decode error).  `set(...)` is modelled by `List.dedup`. -/
def load_pinned_items (s : PinnedManager) (data : JsonData) : PinnedManager :=
  match data with
  | .list items =>
      { pinned_items := items.dedup, favorite_items := [] }
  | .dict pinned favorites =>
      { pinned_items := (pinned.getD []).dedup,
        favorite_items := (favorites.getD []).dedup }
  | .other => s

/-- Embedding of `PinnedManager.add_pinned_item` (lines 75-86): refuses a path that does
not exist on disk (`os.path.exists`, taken as the parameter `exists_fs`);
adds the path to `pinned_items` when not already present. -/
def add_pinned_item (exists_fs : String → Bool) (s : PinnedManager)
    (item_path : String) : PinnedManager :=
  if exists_fs item_path = false then s
  else if item_path ∈ s.pinned_items then s
  else { s with pinned_items := setAdd s.pinned_items item_path }

/-- Embedding of `PinnedManager.remove_pinned_item` (lines 88-100): when the path is
pinned, remove it from `pinned_items` and, if also a favorite, from
`favorite_items`; otherwise a no-op. -/
def remove_pinned_item (s : PinnedManager) (item_path : String) :
    PinnedManager :=
  if item_path ∈ s.pinned_items then
    { pinned_items := setRemove s.pinned_items item_path,
      favorite_items :=
        if item_path ∈ s.favorite_items then
          setRemove s.favorite_items item_path
        else s.favorite_items }
  else s

/-- Embedding of `PinnedManager.is_pinned` (lines 106-108). -/
def is_pinned (s : PinnedManager) (item_path : String) : Bool :=
  item_path ∈ s.pinned_items

/-- Embedding of `PinnedManager.favorite_item` (lines 113-132): refuses a path that does
not exist on disk; auto-pins when not pinned (via `add_pinned_item`); then
adds to `favorite_items` when not already present. -/
def favorite_item (exists_fs : String → Bool) (s : PinnedManager)
    (item_path : String) : PinnedManager :=
  if exists_fs item_path = false then s
  else
    let s1 :=
      if item_path ∈ s.pinned_items then s
      else add_pinned_item exists_fs s item_path
    if item_path ∈ s1.favorite_items then s1
    else { s1 with favorite_items := setAdd s1.favorite_items item_path }

/-- Embedding of `PinnedManager.unfavorite_item` (lines 134-142). -/
def unfavorite_item (s : PinnedManager) (item_path : String) :
    PinnedManager :=
  if item_path ∈ s.favorite_items then
    { s with favorite_items := setRemove s.favorite_items item_path }
  else s

/-- Embedding of `PinnedManager.is_favorite` (lines 148-150). -/
def is_favorite (s : PinnedManager) (item_path : String) : Bool :=
  item_path ∈ s.favorite_items

/-- The states of `PinnedManager` reachable through its public operations,
starting from the fresh empty state and closed under loading any persisted
data and under every mutating method. -/
inductive Reachable (exists_fs : String → Bool) : PinnedManager → Prop where
  | init : Reachable exists_fs ⟨[], []⟩
  | load (s : PinnedManager) (data : JsonData) :
      Reachable exists_fs s → Reachable exists_fs (load_pinned_items s data)
  | pin (s : PinnedManager) (p : String) :
      Reachable exists_fs s →
      Reachable exists_fs (add_pinned_item exists_fs s p)
  | unpin (s : PinnedManager) (p : String) :
      Reachable exists_fs s → Reachable exists_fs (remove_pinned_item s p)
  | favorite (s : PinnedManager) (p : String) :
      Reachable exists_fs s →
      Reachable exists_fs (favorite_item exists_fs s p)
  | unfavorite (s : PinnedManager) (p : String) :
      Reachable exists_fs s → Reachable exists_fs (unfavorite_item s p)

end Pinned

namespace UndoM

/-- C2 counterexample: with a command whose `do()` raises, the push order the
claim states (`do()` first, then append, then clear) leaves the undo stack
empty, while the code's `push` still places the command on the undo stack;
the two orders disagree at this concrete input, so the claimed order is not
the code's. -/
theorem C2_counterexample :
    (push_specOrdered ⟨[], []⟩ ⟨0, true, false⟩).1.undo_stack = [] ∧
    (push ⟨[], []⟩ ⟨0, true, false⟩).1.undo_stack = [⟨0, true, false⟩] ∧
    push_specOrdered ⟨[], []⟩ ⟨0, true, false⟩ ≠
      push ⟨[], []⟩ ⟨0, true, false⟩ := by
  refine ⟨rfl, rfl, ?_⟩
  decide

/-- C2 (amended): `push(command)` first appends the command to the undo
stack, then clears the redo stack, then calls `command.do()`; consequently
the command is on the undo stack and the redo stack is empty even when
`do()` raises, and the raise propagates to the caller. -/
theorem C2_push_order :
    ∀ (s : UndoManager) (c : Command),
      (push s c).1.undo_stack = s.undo_stack ++ [c] ∧
      (push s c).1.redo_stack = [] ∧
      (push s c).2 = c.doRaises := by
  intro s c
  exact ⟨rfl, rfl, rfl⟩

/-- C6: immediately after any `push`, `can_redo` returns `false`, for every
starting state (hence after every push in any sequence of operations). -/
theorem C6_push_clears_redo :
    ∀ (s : UndoManager) (c : Command), can_redo (push s c).1 = false := by
  intro s c
  rfl

/-- C9: `undo()` on an empty undo stack and `redo()` on an empty redo stack
are no-ops: the state is returned unchanged and no exception is raised. -/
theorem C9_noop_on_empty :
    ∀ s : UndoManager,
      (s.undo_stack = [] → undo s = (s, false)) ∧
      (s.redo_stack = [] → redo s = (s, false)) := by
  intro s
  constructor
  · intro h
    simp [undo, h]
  · intro h
    simp [redo, h]

/-- C9 witness: both no-ops evaluated on the concrete empty manager. -/
theorem C9_witness :
    undo ⟨[], []⟩ = (⟨[], []⟩, false) ∧ redo ⟨[], []⟩ = (⟨[], []⟩, false) :=
  ⟨(C9_noop_on_empty ⟨[], []⟩).1 rfl, (C9_noop_on_empty ⟨[], []⟩).2 rfl⟩

end UndoM

namespace Pinned

/-- C3 counterexample: the state loaded from the persisted dict
`{"pinned": [], "favorites": ["/x"]}` is reachable, yet after `unpin("/x")`
(a no-op, since `"/x"` is not pinned) `is_favorite("/x")` is still `true`. -/
theorem C3_counterexample :
    Reachable (fun _ => false)
      (load_pinned_items ⟨[], []⟩ (.dict (some []) (some ["/x"]))) ∧
    is_favorite
      (remove_pinned_item
        (load_pinned_items ⟨[], []⟩ (.dict (some []) (some ["/x"]))) "/x")
      "/x" = true := by
  refine ⟨Reachable.load _ _ Reachable.init, ?_⟩
  decide

/-- C3 (amended): for every path `p` and every state in which each favorite
is also pinned (which excludes states loaded from a persisted dict whose
favorites are not a subset of the pinned items), `unpin(p)` leaves
`is_favorite p` false. -/
theorem C3_unpin_cascade (s : PinnedManager) (p : String)
    (hsub : ∀ q, q ∈ s.favorite_items → q ∈ s.pinned_items) :
    is_favorite (remove_pinned_item s p) p = false := by
  unfold remove_pinned_item is_favorite setRemove
  split_ifs with h1 h2
  · simp [List.mem_filter]
  · simp [h2]
  · simp
    intro hmem
    exact h1 (hsub p hmem)

/-- C3 witness: the cascade evaluated on a concrete state whose favorites
are a subset of its pinned items. -/
theorem C3_witness :
    is_favorite (remove_pinned_item ⟨["/a"], ["/a"]⟩ "/a") "/a" = false :=
  C3_unpin_cascade ⟨["/a"], ["/a"]⟩ "/a" (fun _ hq => hq)

/-- C7 counterexample: for a path that does not exist on disk,
`favorite_item` is a no-op, so `is_pinned` stays `false`; the implication
does not hold for every path without restriction. -/
theorem C7_counterexample :
    is_pinned (favorite_item (fun _ => false) ⟨[], []⟩ "/x") "/x" = false := by
  decide

/-- C7 (amended): for every path `p` that exists on disk, after
`favorite_item` the query `is_pinned p` returns `true` (favoriting
auto-pins); for a path that does not exist on disk `favorite_item` is a
no-op. -/
theorem C7_favorite_pins (exists_fs : String → Bool) (s : PinnedManager)
    (p : String) (hfs : exists_fs p = true) :
    is_pinned (favorite_item exists_fs s p) p = true := by
  unfold favorite_item add_pinned_item is_pinned setAdd
  simp only [hfs]
  by_cases hp : p ∈ s.pinned_items
  · simp [hp]
    split_ifs <;> simp [hp]
  · simp [hp]
    split_ifs <;> simp_all

/-- C7 witness: the auto-pin evaluated at a concrete existing path. -/
theorem C7_witness :
    ((fun _ => true) "/a" = true) ∧
    is_pinned (favorite_item (fun _ => true) ⟨[], []⟩ "/a") "/a" = true :=
  ⟨rfl, C7_favorite_pins (fun _ => true) ⟨[], []⟩ "/a" rfl⟩

/-- C8: loading a bare JSON array yields exactly its elements as pinned
items and no favorites; loading a JSON object takes the `"pinned"` and
`"favorites"` keys, each defaulting to empty when absent. -/
theorem C8_load_formats :
    ∀ (s : PinnedManager) (items : List String)
      (pinned favorites : Option (List String)) (x : String),
      (x ∈ (load_pinned_items s (.list items)).pinned_items ↔ x ∈ items) ∧
      (load_pinned_items s (.list items)).favorite_items = [] ∧
      (x ∈ (load_pinned_items s (.dict pinned favorites)).pinned_items ↔
        x ∈ pinned.getD []) ∧
      (x ∈ (load_pinned_items s (.dict pinned favorites)).favorite_items ↔
        x ∈ favorites.getD []) ∧
      load_pinned_items s (.dict none none) = ⟨[], []⟩ := by
  intro s items pinned favorites x
  refine ⟨?_, rfl, ?_, ?_, rfl⟩ <;>
    simp [load_pinned_items, List.mem_dedup]

end Pinned

namespace TabHistory

/-- Reading a freshly assigned key of the dict gives the assigned entry. -/
theorem setEntry_self (m : TabStates) (h : Nat) (e : TabEntry) :
    setEntry m h e h = some e := by
  simp [setEntry]

/-- Assigning an entry satisfying the invariant preserves the invariant. -/
theorem inv_setEntry (m : TabStates) (h : Nat) (e : TabEntry)
    (hInv : Inv m) (he : EntryInv e) : Inv (setEntry m h e) := by
  intro k e1 hk
  unfold setEntry at hk
  split at hk
  · cases hk
    exact he
  · exact hInv k e1 hk

/-- Deleting a key preserves the invariant. -/
theorem inv_delEntry (m : TabStates) (h : Nat) (hInv : Inv m) :
    Inv (delEntry m h) := by
  intro k e1 hk
  unfold delEntry at hk
  split at hk
  · exact Option.noConfusion hk
  · exact hInv k e1 hk

/-- Initializing a tab history preserves the invariant. -/
theorem inv_init_tab_history (m : TabStates) (h : Nat) (p : String)
    (hInv : Inv m) : Inv (init_tab_history m h p) := by
  unfold init_tab_history
  split
  · exact hInv
  · exact inv_setEntry m h _ hInv ⟨by simp, by norm_num, by norm_num⟩

/-- Pushing a path preserves the invariant. -/
theorem inv_push_path (m : TabStates) (h : Nat) (p : String)
    (hInv : Inv m) : Inv (push_path m h p) := by
  unfold push_path
  split
  · exact hInv
  · rcases hm : m h with _ | e
    · exact inv_init_tab_history m h p hInv
    · obtain ⟨hne, hle, hlt⟩ := hInv h e hm
      have htr : (pySliceTo e.history (e.history_index + 1)).length
          = (e.history_index + 1).toNat := by
        unfold pySliceTo
        rw [if_pos (by omega)]
        rw [List.length_take]
        omega
      refine inv_setEntry m h _ hInv ⟨by simp, ?_, ?_⟩
      · show (0 : Int) ≤ e.history_index + 1
        omega
      · show e.history_index + 1 <
          ((pySliceTo e.history (e.history_index + 1) ++ [p]).length : Int)
        simp only [List.length_append, List.length_singleton, htr]
        omega

/-- Going back preserves the invariant. -/
theorem inv_go_back (m : TabStates) (h : Nat) (hInv : Inv m) :
    Inv (go_back m h).1 := by
  unfold go_back
  rcases hm : m h with _ | e
  · exact hInv
  · obtain ⟨hne, hle, hlt⟩ := hInv h e hm
    dsimp only
    split
    · refine inv_setEntry m h _ hInv ⟨hne, ?_, ?_⟩
      · show (0 : Int) ≤ e.history_index - 1
        omega
      · show e.history_index - 1 < (e.history.length : Int)
        omega
    · exact inv_setEntry m h _ hInv ⟨hne, hle, hlt⟩

/-- Going forward preserves the invariant. -/
theorem inv_go_forward (m : TabStates) (h : Nat) (hInv : Inv m) :
    Inv (go_forward m h).1 := by
  unfold go_forward
  rcases hm : m h with _ | e
  · exact hInv
  · obtain ⟨hne, hle, hlt⟩ := hInv h e hm
    dsimp only
    split
    · next hcond =>
        refine inv_setEntry m h _ hInv ⟨hne, ?_, ?_⟩
        · show (0 : Int) ≤ e.history_index + 1
          omega
        · show e.history_index + 1 < (e.history.length : Int)
          omega
    · exact hInv

/-- Going up preserves the invariant. -/
theorem inv_go_up (dirname : String → String) (exists_fs : String → Bool)
    (m : TabStates) (h : Nat) (hInv : Inv m) :
    Inv (go_up dirname exists_fs m h).1 := by
  unfold go_up
  dsimp only
  split
  · exact hInv
  · split
    · exact inv_push_path m h _ hInv
    · exact hInv

/-- Migrating history preserves the invariant. -/
theorem inv_migrate_history (m : TabStates) (src tgt : Nat) (hInv : Inv m) :
    Inv (migrate_history m src tgt) := by
  unfold migrate_history
  rcases hm : m src with _ | e
  · exact hInv
  · obtain ⟨hne, hle, hlt⟩ := hInv src e hm
    exact inv_delEntry _ src (inv_setEntry m tgt _ hInv ⟨hne, hle, hlt⟩)

/-- C4: whenever an entry exists its history is non-empty and
`0 <= history_index < len(history)`, and every operation (init, push,
go back, go forward, go up, migrate) preserves this invariant. -/
theorem C4_invariant_preserved (dirname : String → String)
    (exists_fs : String → Bool) (m : TabStates) (h src tgt : Nat)
    (p : String) (hInv : Inv m) :
    Inv (init_tab_history m h p) ∧ Inv (push_path m h p) ∧
    Inv (go_back m h).1 ∧ Inv (go_forward m h).1 ∧
    Inv (go_up dirname exists_fs m h).1 ∧ Inv (migrate_history m src tgt) :=
  ⟨inv_init_tab_history m h p hInv, inv_push_path m h p hInv,
   inv_go_back m h hInv, inv_go_forward m h hInv,
   inv_go_up dirname exists_fs m h hInv, inv_migrate_history m src tgt hInv⟩

/-- C4 witness: the preservation instantiated on the empty manager. -/
theorem C4_witness :
    Inv (fun _ => none) ∧
    (Inv (init_tab_history (fun _ => none) 0 "/a") ∧
     Inv (push_path (fun _ => none) 0 "/a") ∧
     Inv (go_back (fun _ => none) 0).1 ∧
     Inv (go_forward (fun _ => none) 0).1 ∧
     Inv (go_up (fun _ => "") (fun _ => false) (fun _ => none) 0).1 ∧
     Inv (migrate_history (fun _ => none) 0 1)) :=
  have hInv : Inv (fun _ => none) := fun _ _ hk => Option.noConfusion hk
  ⟨hInv, C4_invariant_preserved (fun _ => "") (fun _ => false)
    (fun _ => none) 0 0 1 "/a" hInv⟩

end TabHistory

namespace TabHistory

/-- Evaluating `push_path` on a handle whose entry is known. -/
theorem push_path_at_entry (m : TabStates) (h : Nat) (p : String)
    (e : TabEntry) (hp : p ≠ "") (hm : m h = some e)
    (hnn : 0 ≤ e.history_index) :
    push_path m h p h =
      some ⟨e.history.take (e.history_index.toNat + 1) ++ [p],
        e.history_index + 1⟩ := by
  have htk : (e.history_index + 1).toNat = e.history_index.toNat + 1 := by
    omega
  simp [push_path, hp, hm, pySliceTo, setEntry, if_pos (by omega : (0 : Int) ≤ e.history_index + 1), htk]

/-- Evaluating `go_back` on a handle whose entry has a positive index. -/
theorem go_back_at_entry (m : TabStates) (h : Nat) (e : TabEntry)
    (hm : m h = some e) (hpos : 0 < e.history_index) :
    (go_back m h).1 h = some ⟨e.history, e.history_index - 1⟩ := by
  simp [go_back, hm, hpos, setEntry]

/-- C5: starting from `init(h, p0)`, the sequence
`push(h, p1); push(h, p2); goBack(h); push(h, p3)` leaves the entry for `h`
exactly `[p0, p1, p3]` with index 2 (the forward entry `p2` is discarded by
the truncation in `push_path`), for any non-empty paths. -/
theorem C5_truncation (m : TabStates) (h : Nat) (p0 p1 p2 p3 : String)
    (h0 : p0 ≠ "") (h1 : p1 ≠ "") (h2 : p2 ≠ "") (h3 : p3 ≠ "") :
    (push_path
      (go_back (push_path (push_path (init_tab_history m h p0) h p1) h p2)
        h).1 h p3) h
    = some ⟨[p0, p1, p3], 2⟩ := by
  have s1 : init_tab_history m h p0 h = some ⟨[p0], 0⟩ := by
    simp [init_tab_history, h0, setEntry]
  have s2 : push_path (init_tab_history m h p0) h p1 h
      = some ⟨[p0, p1], 1⟩ := by
    rw [push_path_at_entry _ h p1 ⟨[p0], 0⟩ h1 s1 (by norm_num)]
    norm_num
  have s3 : push_path (push_path (init_tab_history m h p0) h p1) h p2 h
      = some ⟨[p0, p1, p2], 2⟩ := by
    rw [push_path_at_entry _ h p2 ⟨[p0, p1], 1⟩ h2 s2 (by norm_num)]
    norm_num
  have s4 : (go_back
        (push_path (push_path (init_tab_history m h p0) h p1) h p2) h).1 h
      = some ⟨[p0, p1, p2], 1⟩ := by
    rw [go_back_at_entry _ h ⟨[p0, p1, p2], 2⟩ s3 (by norm_num)]
    norm_num
  rw [push_path_at_entry _ h p3 ⟨[p0, p1, p2], 1⟩ h3 s4 (by norm_num)]
  norm_num

/-- C5 witness: the sequence evaluated on concrete paths. -/
theorem C5_witness :
    (push_path
      (go_back
        (push_path (push_path (init_tab_history (fun _ => none) 0 "/a") 0 "/b")
          0 "/c") 0).1 0 "/d") 0
    = some ⟨["/a", "/b", "/d"], 2⟩ :=
  C5_truncation (fun _ => none) 0 "/a" "/b" "/c" "/d"
    (by decide) (by decide) (by decide) (by decide)

/-- C1: immediately after `init(h, p0)` the call `goBack(h)` does not return
the empty string; with the entry at index 0, `go_back` leaves the index at 0
and returns `get_current_path`, i.e. the current path `p0` itself
(here evaluated at `p0 = "/a"`), while both the claim and the docstring of
`go_back` say the empty string should be returned. -/
theorem C1_go_back_at_index_zero :
    (go_back (init_tab_history (fun _ => none) 0 "/a") 0).2 = "/a" ∧
    "/a" ≠ "" := by
  refine ⟨?_, by decide⟩
  have s1 : init_tab_history (fun _ => none) 0 "/a" 0 = some ⟨["/a"], 0⟩ := by
    simp [init_tab_history, setEntry]
  simp [go_back, s1, get_current_path, setEntry]

/-- C10: migrating a handle onto itself (`migrate(h, h)`) deletes the entry
entirely: the key is gone and `get_current_path` returns the empty string. -/
theorem C10_migrate_self_deletes (m : TabStates) (h : Nat) (e : TabEntry)
    (hm : m h = some e) :
    migrate_history m h h h = none ∧
    get_current_path (migrate_history m h h) h = "" := by
  have hres : migrate_history m h h h = none := by
    simp [migrate_history, hm, delEntry]
  refine ⟨hres, ?_⟩
  simp [get_current_path, hres]

/-- C10 witness: self-migration evaluated on a concrete one-entry manager. -/
theorem C10_witness :
    migrate_history (fun k => if k = 0 then some ⟨["/a"], 0⟩ else none) 0 0 0
      = none ∧
    get_current_path
      (migrate_history (fun k => if k = 0 then some ⟨["/a"], 0⟩ else none) 0 0)
      0 = "" :=
  C10_migrate_self_deletes (fun k => if k = 0 then some ⟨["/a"], 0⟩ else none)
    0 ⟨["/a"], 0⟩ rfl

end TabHistory
